import Mathlib

/-!
Verification of the tiered job-queue dispatcher (`src/server.js`).

The server accepts HTTP requests, validates them, enqueues them on a main
queue, fans them out to regional queues (USA, Europe, India) by the
`location` header, and lets per-region workers fire a mock backend call.
We embed the request-handling, dispatch, worker, reporting and shutdown
logic as pure Lean functions and prove properties about them.
-/

namespace Server

/-- Job record placed on the main queue by `manageQueues`
(`src/server.js` line 67): `{ method, url, location, requestId }`. -/
structure MainJob where
  method : String
  url : String
  location : String
  requestId : Nat
  deriving Repr, DecidableEq

/-- Job record placed on a regional queue by the dispatcher
(`src/server.js` lines 86, 92, 98): `{ method, url, requestId }` —
the `location` field is stripped. -/
structure RegionalJob where
  method : String
  url : String
  requestId : Nat
  deriving Repr, DecidableEq

/-- The request payload recorded in a trace-log entry
(`queueLogs.push({ queue, request: { method, url, location, requestId } })`). -/
structure LogRequest where
  method : String
  url : String
  location : String
  requestId : Nat
  deriving Repr, DecidableEq

/-- A trace-log entry: `{ queue: <queueName>, request: <LogRequest> }`
(`src/server.js` lines 71-74, 87-90, 93-96, 99-102). -/
structure QueueLog where
  queue : String
  request : LogRequest
  deriving Repr, DecidableEq

/-- State touched by the main-queue handler: the three regional queues
(modelled as FIFO lists, head = front), the shared `queueLogs` trace
array, and the `console.error` output stream. -/
structure DispatchState where
  usaQueue : List RegionalJob
  europeQueue : List RegionalJob
  indiaQueue : List RegionalJob
  queueLogs : List QueueLog
  errors : List String
  deriving Repr, DecidableEq

/-- The regional job obtained by stripping `location` from a main-queue
job: `{ method, url, requestId }` (`src/server.js` lines 86, 92, 98). -/
def MainJob.strip (j : MainJob) : RegionalJob :=
  ⟨j.method, j.url, j.requestId⟩

/-- The trace-log request payload of a main-queue job (keeps `location`). -/
def MainJob.logRequest (j : MainJob) : LogRequest :=
  ⟨j.method, j.url, j.location, j.requestId⟩

/-- The main-queue handler body (`mainQueue.process`, `src/server.js`
lines 80-111): route the job to exactly one regional queue by `location`,
appending a trace-log entry naming the destination queue; an unknown
location logs `Invalid location: <location>` and enqueues nowhere.
The returned `Bool` is the `done()` signal from the `finally` block. -/
def mainQueueProcess (job : MainJob) (s : DispatchState) : DispatchState × Bool :=
  let s' :=
    if job.location = "USA" then
      { s with usaQueue := s.usaQueue ++ [job.strip],
               queueLogs := s.queueLogs ++ [⟨"usaQueue", job.logRequest⟩] }
    else if job.location = "Europe" then
      { s with europeQueue := s.europeQueue ++ [job.strip],
               queueLogs := s.queueLogs ++ [⟨"europeQueue", job.logRequest⟩] }
    else if job.location = "India" then
      { s with indiaQueue := s.indiaQueue ++ [job.strip],
               queueLogs := s.queueLogs ++ [⟨"indiaQueue", job.logRequest⟩] }
    else
      { s with errors := s.errors ++ ["Invalid location: " ++ job.location] }
  (s', true)

/-- An inbound HTTP request as seen by the express middleware: `method`
and `url` from the request line and the `location` header
(`src/server.js` lines 46-47, 58-59). A missing field is `none`. -/
structure RawRequest where
  method : Option String
  url : Option String
  location : Option String
  deriving Repr, DecidableEq

/-- JavaScript truthiness test `!x` applied to a request field: true when
the field is absent (`undefined`) or the empty string — exactly the values
`validateRequest` rejects (`src/server.js` line 49). -/
def falsyField : Option String → Bool
  | none => true
  | some s => s = ""

/-- The condition of `validateRequest` (`src/server.js` line 49):
`!method || !url || !location`. -/
def requestInvalid (r : RawRequest) : Bool :=
  falsyField r.method || falsyField r.url || falsyField r.location

/-- Body of an HTTP response produced by the server: either
`{ error: <msg> }` or `{ message: <msg> }`. -/
inductive RespBody
  | errorBody (msg : String)
  | messageBody (msg : String)
  deriving Repr, DecidableEq

/-- An HTTP response: status code and JSON body. -/
structure HttpResponse where
  status : Nat
  body : RespBody
  deriving Repr, DecidableEq

/-- Server-side state touched by the ingress path: the main queue
(FIFO list, head = front), the shared `queueLogs` trace array, and the
`console.log` output stream. -/
structure IngressState where
  mainQueue : List MainJob
  queueLogs : List QueueLog
  infoLogs : List String
  deriving Repr, DecidableEq

/-- The full request path `app.use(validateRequest, manageQueues)`
(`src/server.js` lines 45-77, 154): `validateRequest` answers 400
`{ error: "Invalid request" }` when `method`, `url` or the `location`
header is falsy, touching no queue; otherwise `manageQueues` assigns
`requestId = Date.now()` (the `now` argument), logs the request, appends
it to the main queue and the trace log, and answers 202
`{ message: "Request queued for processing" }`. -/
def handleRequest (now : Nat) (r : RawRequest) (s : IngressState) :
    HttpResponse × IngressState :=
  if requestInvalid r then
    (⟨400, .errorBody "Invalid request"⟩, s)
  else
    let method := r.method.getD ""
    let url := r.url.getD ""
    let location := r.location.getD ""
    let job : MainJob := ⟨method, url, location, now⟩
    (⟨202, .messageBody "Request queued for processing"⟩,
     { s with
        mainQueue := s.mainQueue ++ [job],
        queueLogs := s.queueLogs ++ [⟨"mainQueue", ⟨method, url, location, now⟩⟩],
        infoLogs := s.infoLogs ++
          ["Incoming " ++ method ++ " request (" ++ toString now ++ "): " ++ url,
           "Location: " ++ location] })

/-- The request path in effect after a termination signal has been
received (while queues are draining). `gracefulShutdown`
(`src/server.js` lines 184-204) sets no flag read by the middleware and
does not close the listener before exiting, so requests arriving during
the drain go through the exact same `validateRequest`/`manageQueues`
chain (`src/server.js` line 154). -/
def handleRequestWhileDraining (now : Nat) (r : RawRequest) (s : IngressState) :
    HttpResponse × IngressState :=
  handleRequest now r s

/-- The request id assigned at intake: `const requestId = Date.now()`
(`src/server.js` line 60), i.e. the current wall-clock millisecond. -/
def assignRequestId (now : Nat) : Nat := now

/-- The shared shape of every queue handler in `src/server.js` (lines
80-111, 114-125, 127-138, 140-151): a `try` body, a `catch` that logs
`Error processing job <requestId>: <error>`, and a `finally` that calls
`done()`. `body` is the outcome of the handler body (an exception carries
a message), `logError` appends a console-error line to the state; the
returned `Bool` is the `done()` signal. -/
def handlerRun {σ : Type} (requestId : Nat) (logError : String → σ → σ)
    (body : Except String σ) (s : σ) : σ × Bool :=
  match body with
  | .ok s' => (s', true)
  | .error e =>
      (logError ("Error processing job " ++ toString requestId ++ ": " ++ e) s, true)

/-- A regional worker's handler (`usaQueue.process` and its Europe/India
twins, `src/server.js` lines 114-151): pick a mock backend endpoint and
invoke it fire-and-forget. `backend` is the outcome of initiating that
call (an exception carries a message); on success nothing is logged, on
failure the catch block logs the error with the job id; `done()` is
signalled either way. -/
def regionalWorkerProcess (backend : Except String Unit) (job : RegionalJob)
    (errors : List String) : List String × Bool :=
  handlerRun job.requestId (fun e errs => errs ++ [e])
    (backend.map fun _ => errors) errors

/-- The queues drained at shutdown, in the order of the `queues` array
(`src/server.js` line 188). -/
def shutdownQueueNames : List String :=
  ["mainQueue", "usaQueue", "europeQueue", "indiaQueue"]

/-- `Promise.all` over settled drain outcomes: fulfilled when every
element is fulfilled, otherwise rejected with a rejection's reason. -/
def promiseAll : List (Except String Unit) → Except String Unit
  | [] => .ok ()
  | .error e :: _ => .error e
  | .ok _ :: rest => promiseAll rest

/-- `gracefulShutdown` (`src/server.js` lines 184-204): invoke `drain` on
all four queues, `Promise.all` the outcomes; when all succeed log the
completion and call `process.exit(0)`, when any fails log the cause and
call `process.exit(1)`. `drain` maps each queue name to its drain
outcome; the result is the exit code paired with the console output. -/
def gracefulShutdown (drain : String → Except String Unit) : Nat × List String :=
  match promiseAll (shutdownQueueNames.map drain) with
  | .ok _ =>
      (0, ["Gracefully shutting down the server...",
           "All queues drained. Shutting down..."])
  | .error e =>
      (1, ["Gracefully shutting down the server...",
           "Error during graceful shutdown: " ++ e])

/-- Sizes and trace log read by the periodic performance report. -/
structure ReportInput where
  mainSize : Nat
  usaSize : Nat
  europeSize : Nat
  indiaSize : Nat
  queueLogs : List QueueLog
  deriving Repr, DecidableEq

/-- Format of one replayed trace-log line (`src/server.js` line 178):
`<queueName> queue: <method> <url> (<location>) [<requestId>]`. -/
def formatQueueLog (l : QueueLog) : String :=
  l.queue ++ " queue: " ++ l.request.method ++ " " ++ l.request.url ++ " (" ++
    l.request.location ++ ") [" ++ toString l.request.requestId ++ "]"

/-- The periodic queue-performance report (`setInterval` body,
`src/server.js` lines 163-181, fired every 10000 ms). It reads the four
queue sizes and prints them — line 172 guards the Europe line with
`europeQueueSize &&`, so that line is printed only when the Europe size
is truthy (non-zero) — then replays every accumulated trace-log entry.
The function only reads; no queue is mutated. -/
def analyzeQueues (s : ReportInput) : List String :=
  ["Queue performance analysis:",
   "Main queue size: " ++ toString s.mainSize,
   "USA queue size: " ++ toString s.usaSize]
  ++ (if s.europeSize ≠ 0 then ["Europe queue size: " ++ toString s.europeSize] else [])
  ++ ["India queue size: " ++ toString s.indiaSize,
      "Queue logs:"]
  ++ s.queueLogs.map formatQueueLog

/-- A run of a regional worker's queue. Modelled from the spec: the queue
primitive backing `usaQueue` and its twins is the external `bull`
library, not part of this repository; per the spec it drives the single
registered handler against jobs in FIFO order with concurrency 1. The
handler itself is `src/server.js` lines 114-125: it initiates one mock
backend call, whose response fires `delay` ms later (lines 14-33), and
signals `done()` immediately without awaiting that response. Fields:
the pending FIFO (head = front), the current logical time, the dispatched
backend calls in dispatch order paired with their dispatch times, the
`done()` events `(requestId, time)`, and the scheduled backend responses
`(requestId, fireTime)`. -/
structure WorkerRun where
  pending : List RegionalJob
  time : Nat
  dispatched : List (RegionalJob × Nat)
  doneEvents : List (Nat × Nat)
  responses : List (Nat × Nat)
  deriving Repr, DecidableEq

/-- One worker step: take the front job, dispatch its backend call at the
current time, schedule the response `delay` ms later, signal `done()`
immediately (same time), and advance. An empty queue idles. -/
def stepWorker (delay : RegionalJob → Nat) : WorkerRun → WorkerRun
  | ⟨[], t, d, dn, r⟩ => ⟨[], t, d, dn, r⟩
  | ⟨j :: rest, t, d, dn, r⟩ =>
      ⟨rest, t + 1, d ++ [(j, t)], dn ++ [(j.requestId, t)],
       r ++ [(j.requestId, t + delay j)]⟩

/-- `n` consecutive worker steps. -/
def runWorker (delay : RegionalJob → Nat) : Nat → WorkerRun → WorkerRun
  | 0, s => s
  | n + 1, s => runWorker delay n (stepWorker delay s)

/-- A fresh worker run over queue contents `jobs`. -/
def initRun (jobs : List RegionalJob) : WorkerRun := ⟨jobs, 0, [], [], []⟩

/-- The two mock backend endpoints (`src/server.js` lines 14-33):
variant 0 (`/api/v1/resource`) answers after
`Math.floor(Math.random() * 2000) + 500` ms (500 to 2499), variant 1
(`/api/v2/resource`) after `Math.floor(Math.random() * 1000) + 200` ms
(200 to 1199). `rand` stands for the random draw, reduced into range. -/
def mockDelay (variant rand : Nat) : Nat :=
  if variant % 2 = 0 then rand % 2000 + 500 else rand % 1000 + 200

end Server

namespace Server

/-- Claim C1: a main-queue job whose location is USA, Europe or India is routed by
exactly one regional `add` — to the queue matching its location, stripped of
the `location` field — with exactly one trace-log entry naming that
destination queue, and the other two regional queues unchanged. -/
theorem dispatch_routes_exactly_one (job : MainJob) (s : DispatchState)
    (h : job.location = "USA" ∨ job.location = "Europe" ∨ job.location = "India") :
    let s' := (mainQueueProcess job s).1
    (job.location = "USA" →
       s'.usaQueue = s.usaQueue ++ [job.strip] ∧
       s'.europeQueue = s.europeQueue ∧ s'.indiaQueue = s.indiaQueue ∧
       s'.queueLogs = s.queueLogs ++ [⟨"usaQueue", job.logRequest⟩]) ∧
    (job.location = "Europe" →
       s'.europeQueue = s.europeQueue ++ [job.strip] ∧
       s'.usaQueue = s.usaQueue ∧ s'.indiaQueue = s.indiaQueue ∧
       s'.queueLogs = s.queueLogs ++ [⟨"europeQueue", job.logRequest⟩]) ∧
    (job.location = "India" →
       s'.indiaQueue = s.indiaQueue ++ [job.strip] ∧
       s'.usaQueue = s.usaQueue ∧ s'.europeQueue = s.europeQueue ∧
       s'.queueLogs = s.queueLogs ++ [⟨"indiaQueue", job.logRequest⟩]) ∧
    s'.usaQueue.length + s'.europeQueue.length + s'.indiaQueue.length =
      s.usaQueue.length + s.europeQueue.length + s.indiaQueue.length + 1 := by
  rcases h with h | h | h <;> simp [mainQueueProcess, h] <;> omega

/-- Witness for `dispatch_routes_exactly_one` at a concrete USA job. -/
theorem dispatch_routes_exactly_one_witness :
    let job : MainJob := ⟨"GET", "/api/v1/resource", "USA", 42⟩
    let s : DispatchState := ⟨[], [], [], [], []⟩
    (mainQueueProcess job s).1.usaQueue = [⟨"GET", "/api/v1/resource", 42⟩] ∧
    (mainQueueProcess job s).1.europeQueue = [] ∧
    (mainQueueProcess job s).1.indiaQueue = [] := by
  have h := dispatch_routes_exactly_one ⟨"GET", "/api/v1/resource", "USA", 42⟩
    ⟨[], [], [], [], []⟩ (Or.inl rfl)
  refine ⟨?_, ?_, ?_⟩
  · exact ((h.1 rfl).1).trans (by rfl)
  · exact (h.1 rfl).2.1
  · exact (h.1 rfl).2.2.1

/-- Claim C2: a main-queue job whose location is none of USA, Europe, India is
enqueued nowhere, produces exactly one `Invalid location` error log, leaves
the trace log unchanged, and is still marked done. -/
theorem dispatch_unroutable_dropped (job : MainJob) (s : DispatchState)
    (h : job.location ≠ "USA" ∧ job.location ≠ "Europe" ∧ job.location ≠ "India") :
    (mainQueueProcess job s).1.usaQueue = s.usaQueue ∧
    (mainQueueProcess job s).1.europeQueue = s.europeQueue ∧
    (mainQueueProcess job s).1.indiaQueue = s.indiaQueue ∧
    (mainQueueProcess job s).1.queueLogs = s.queueLogs ∧
    (mainQueueProcess job s).1.errors =
      s.errors ++ ["Invalid location: " ++ job.location] ∧
    (mainQueueProcess job s).2 = true := by
  obtain ⟨h1, h2, h3⟩ := h
  simp [mainQueueProcess, h1, h2, h3]

/-- Witness for `dispatch_unroutable_dropped` at a concrete job with
location "Mars". -/
theorem dispatch_unroutable_dropped_witness :
    let job : MainJob := ⟨"GET", "/api/v1/resource", "Mars", 7⟩
    let s : DispatchState := ⟨[], [], [], [], []⟩
    (mainQueueProcess job s).1.errors = ["Invalid location: Mars"] ∧
    (mainQueueProcess job s).1.usaQueue = [] := by
  have h := dispatch_unroutable_dropped ⟨"GET", "/api/v1/resource", "Mars", 7⟩
    ⟨[], [], [], [], []⟩ (by refine ⟨?_, ?_, ?_⟩ <;> decide)
  exact ⟨h.2.2.2.2.1.trans (by rfl), h.1⟩

/-- Claim C3: a request with a falsy (absent or empty) `method`, `url` or
`location` header gets HTTP 400 `{ error: "Invalid request" }` and
mutates nothing; any other request gets HTTP 202
`{ message: "Request queued for processing" }` and the main queue grows
by exactly one; no other status code is produced. -/
theorem ingress_validate_then_enqueue (now : Nat) (r : RawRequest) (s : IngressState) :
    (requestInvalid r = true →
       handleRequest now r s = (⟨400, .errorBody "Invalid request"⟩, s)) ∧
    (requestInvalid r = false →
       (handleRequest now r s).1 = ⟨202, .messageBody "Request queued for processing"⟩ ∧
       (handleRequest now r s).2.mainQueue.length = s.mainQueue.length + 1) ∧
    ((handleRequest now r s).1.status = 400 ∨ (handleRequest now r s).1.status = 202) := by
  by_cases h : requestInvalid r <;> simp [handleRequest, h]

/-- Witness for `ingress_validate_then_enqueue`: a valid request gets 202
and enqueues one job; a request missing `method` gets 400. -/
theorem ingress_validate_then_enqueue_witness :
    (handleRequest 5 ⟨some "GET", some "/api/v1/resource", some "USA"⟩
        ⟨[], [], []⟩).1.status = 202 ∧
    (handleRequest 5 ⟨some "GET", some "/api/v1/resource", some "USA"⟩
        ⟨[], [], []⟩).2.mainQueue.length = 1 ∧
    (handleRequest 5 ⟨none, some "/api/v1/resource", some "USA"⟩
        ⟨[], [], []⟩).1.status = 400 := by
  have h1 := ingress_validate_then_enqueue 5
    ⟨some "GET", some "/api/v1/resource", some "USA"⟩ ⟨[], [], []⟩
  have h2 := ingress_validate_then_enqueue 5
    ⟨none, some "/api/v1/resource", some "USA"⟩ ⟨[], [], []⟩
  refine ⟨?_, ?_, ?_⟩
  · rw [(h1.2.1 (by decide)).1]
  · exact (h1.2.1 (by decide)).2
  · rw [h2.1 (by decide)]

/-- Claim C4: every handler follows try/catch/finally: `done()` is always
signalled (the queue advances, the process survives), a failing backend
call is caught and logged as exactly one console-error line naming the
job's `requestId`, a succeeding one logs nothing — and the dispatcher's
handler likewise always signals `done()`. -/
theorem handler_errors_contained (backend : Except String Unit)
    (job : RegionalJob) (errors : List String) :
    (regionalWorkerProcess backend job errors).2 = true ∧
    (∀ e, backend = .error e →
       (regionalWorkerProcess backend job errors).1 =
         errors ++ ["Error processing job " ++ toString job.requestId ++ ": " ++ e]) ∧
    (backend = .ok () → (regionalWorkerProcess backend job errors).1 = errors) ∧
    (∀ (mj : MainJob) (ds : DispatchState), (mainQueueProcess mj ds).2 = true) := by
  refine ⟨?_, ?_, ?_, ?_⟩
  · cases backend <;> rfl
  · intro e he; subst he; rfl
  · intro he; subst he; rfl
  · intro mj ds; rfl

/-- Witness for `handler_errors_contained`: a backend failure on job 5 is
logged with the job id and the job is still marked done. -/
theorem handler_errors_contained_witness :
    (regionalWorkerProcess (.error "boom") ⟨"GET", "/api/v1/resource", 5⟩ []).2 = true ∧
    (regionalWorkerProcess (.error "boom") ⟨"GET", "/api/v1/resource", 5⟩ []).1 =
      ["Error processing job 5: boom"] := by
  have h := handler_errors_contained (.error "boom") ⟨"GET", "/api/v1/resource", 5⟩ []
  exact ⟨h.1, (h.2.1 "boom" rfl).trans (by rfl)⟩

/-- `promiseAll` succeeds exactly when every element succeeds. -/
theorem promiseAll_ok_iff (l : List (Except String Unit)) :
    promiseAll l = .ok () ↔ ∀ x ∈ l, x = .ok () := by
  induction l with
  | nil => simp [promiseAll]
  | cons x rest ih => cases x <;> simp [promiseAll, ih]

/-- A `promiseAll` rejection reason comes from one of the elements. -/
theorem promiseAll_error_mem (l : List (Except String Unit)) (e : String)
    (h : promiseAll l = .error e) : Except.error e ∈ l := by
  induction l with
  | nil => simp [promiseAll] at h
  | cons x rest ih =>
      cases x with
      | ok u => exact List.mem_cons_of_mem _ (ih (by simpa [promiseAll] using h))
      | error e2 =>
          simp [promiseAll] at h
          simp [h]

/-- Claim C5: on a termination signal `drain` is invoked on all four queues;
the process exits 0 exactly when every drain succeeds, and when any drain
fails it exits non-zero after logging the cause. -/
theorem shutdown_drains_then_exits (drain : String → Except String Unit) :
    ((∀ q ∈ shutdownQueueNames, drain q = .ok ()) →
       (gracefulShutdown drain).1 = 0) ∧
    ((gracefulShutdown drain).1 = 0 → ∀ q ∈ shutdownQueueNames, drain q = .ok ()) ∧
    ((gracefulShutdown drain).1 ≠ 0 →
       (gracefulShutdown drain).1 = 1 ∧
       ∃ e, "Error during graceful shutdown: " ++ e ∈ (gracefulShutdown drain).2 ∧
         ∃ q ∈ shutdownQueueNames, drain q = .error e) := by
  refine ⟨?_, ?_, ?_⟩
  · intro h
    have hok : promiseAll (shutdownQueueNames.map drain) = .ok () := by
      rw [promiseAll_ok_iff]
      intro x hx
      rcases List.mem_map.1 hx with ⟨q, hq, rfl⟩
      exact h q hq
    simp [gracefulShutdown, hok]
  · intro h q hq
    rcases he : promiseAll (shutdownQueueNames.map drain) with e | u
    · simp [gracefulShutdown, he] at h
    · exact (promiseAll_ok_iff _).1 (by simp [he]) _ (List.mem_map_of_mem drain hq)
  · intro h
    rcases he : promiseAll (shutdownQueueNames.map drain) with e | u
    · refine ⟨by simp [gracefulShutdown, he], e, by simp [gracefulShutdown, he], ?_⟩
      have := promiseAll_error_mem _ _ he
      rcases List.mem_map.1 this with ⟨q, hq, hqe⟩
      exact ⟨q, hq, hqe⟩
    · simp [gracefulShutdown, he] at h

/-- Witness for `shutdown_drains_then_exits`: all drains succeeding gives
exit code 0; a failing europeQueue drain gives exit code 1 with the cause
logged. -/
theorem shutdown_drains_then_exits_witness :
    (gracefulShutdown fun _ => .ok ()).1 = 0 ∧
    (gracefulShutdown fun q => if q = "europeQueue" then .error "disk" else .ok ()).1 = 1 := by
  have h1 := shutdown_drains_then_exits (fun _ => .ok ())
  have h2 := shutdown_drains_then_exits
    (fun q => if q = "europeQueue" then .error "disk" else .ok ())
  refine ⟨h1.1 (fun q _ => rfl), ?_⟩
  refine (h2.2.2 ?_).1
  intro hzero
  have := h2.2.1 hzero "europeQueue" (by decide)
  simp at this

/-- A worker over an empty queue idles forever. -/
theorem runWorker_nil (delay : RegionalJob → Nat) (n : Nat) (t : Nat)
    (d : List (RegionalJob × Nat)) (dn r : List (Nat × Nat)) :
    runWorker delay n ⟨[], t, d, dn, r⟩ = ⟨[], t, d, dn, r⟩ := by
  induction n with
  | zero => rfl
  | succ n ih => exact ih

/-- After `n` worker steps the dispatched backend calls are the first `n`
pending jobs, in queue order, timestamped consecutively from the start
time — for every latency assignment `delay`. -/
theorem runWorker_dispatched (delay : RegionalJob → Nat) (n : Nat) :
    ∀ (jobs : List RegionalJob) (t : Nat)
      (d : List (RegionalJob × Nat)) (dn r : List (Nat × Nat)),
    (runWorker delay n ⟨jobs, t, d, dn, r⟩).dispatched =
      d ++ ((jobs.take n).enumFrom t).map (fun p => (p.2, p.1)) := by
  induction n with
  | zero => intro jobs t d dn r; simp [runWorker]
  | succ n ih =>
      intro jobs t d dn r
      cases jobs with
      | nil =>
          rw [show runWorker delay (n + 1) ⟨[], t, d, dn, r⟩
                = runWorker delay n ⟨[], t, d, dn, r⟩ from rfl,
              runWorker_nil]
          simp
      | cons j rest =>
          rw [show runWorker delay (n + 1) ⟨j :: rest, t, d, dn, r⟩
                = runWorker delay n
                    ⟨rest, t + 1, d ++ [(j, t)], dn ++ [(j.requestId, t)],
                     r ++ [(j.requestId, t + delay j)]⟩ from rfl,
              ih]
          simp [List.enumFrom]

/-- Claim C6: within one regional queue jobs go to the backend in enqueue
order: if job A sits at position i and job B at position j > i, then any
run long enough to dispatch B dispatched A at the strictly earlier time i
(B at time j), whatever backend latencies `delay` assigns — the worker
signals done without awaiting the response, so a slow call for A cannot
delay or reorder B. -/
theorem fifo_dispatch_order (delay : RegionalJob → Nat) (jobs : List RegionalJob)
    (n i j : Nat) (hij : i < j) (hjn : j < n) (hjl : j < jobs.length) :
    ((runWorker delay n (initRun jobs)).dispatched)[i]? =
        some (jobs.get ⟨i, lt_trans hij hjl⟩, i) ∧
    ((runWorker delay n (initRun jobs)).dispatched)[j]? =
        some (jobs.get ⟨j, hjl⟩, j) := by
  have hd := runWorker_dispatched delay n jobs 0 [] [] []
  rw [show initRun jobs = ⟨jobs, 0, [], [], []⟩ from rfl]
  rw [hd]
  have hin : i < n := lt_trans hij hjn
  have hil : i < jobs.length := lt_trans hij hjl
  constructor <;>
    simp [List.getElem?_take_of_lt, hin, hjn, List.getElem?_eq_getElem, hil, hjl]

/-- Witness for `fifo_dispatch_order`: two jobs enqueued A then B, with
the slowest possible backend latency, are dispatched at times 0 and 1 in
enqueue order. -/
theorem fifo_dispatch_order_witness :
    ((runWorker (fun _ => 2499) 2
        (initRun [⟨"GET", "/api/v1/resource", 1⟩, ⟨"POST", "/api/v2/resource", 2⟩])).dispatched)[0]? =
      some (⟨"GET", "/api/v1/resource", 1⟩, 0) ∧
    ((runWorker (fun _ => 2499) 2
        (initRun [⟨"GET", "/api/v1/resource", 1⟩, ⟨"POST", "/api/v2/resource", 2⟩])).dispatched)[1]? =
      some (⟨"POST", "/api/v2/resource", 2⟩, 1) := by
  have h := fifo_dispatch_order (fun _ => 2499)
    [⟨"GET", "/api/v1/resource", 1⟩, ⟨"POST", "/api/v2/resource", 2⟩]
    2 0 1 (by decide) (by decide) (by decide)
  exact ⟨h.1, h.2⟩

/-- Claim C7 (code bug): at a tick where the Europe queue is empty the report
omits the Europe size line — line 172 of `src/server.js` guards it with
`europeQueueSize &&` — while emitting the other three size lines and the
trace-log replay, so the one-size-line-per-queue contract fails. -/
theorem report_skips_empty_europe :
    analyzeQueues ⟨2, 1, 0, 3, [⟨"usaQueue", ⟨"GET", "/api/v1/resource", "USA", 42⟩⟩]⟩ =
      ["Queue performance analysis:",
       "Main queue size: 2",
       "USA queue size: 1",
       "India queue size: 3",
       "Queue logs:",
       "usaQueue queue: GET /api/v1/resource (USA) [42]"] ∧
    "Europe queue size: 0" ∉
      analyzeQueues ⟨2, 1, 0, 3, [⟨"usaQueue", ⟨"GET", "/api/v1/resource", "USA", 42⟩⟩]⟩ := by
  constructor <;> decide

/-- Claim C8 (counterexample): while the queues are draining after a
termination signal, a well-formed request is still answered 202 and
enqueued on the main queue — not rejected with any
ServiceUnavailable-class (5xx) response. -/
theorem draining_ingress_counterexample :
    (handleRequestWhileDraining 99 ⟨some "GET", some "/api/v1/resource", some "USA"⟩
        ⟨[], [], []⟩).1.status = 202 ∧
    (handleRequestWhileDraining 99 ⟨some "GET", some "/api/v1/resource", some "USA"⟩
        ⟨[], [], []⟩).1.status < 500 ∧
    (handleRequestWhileDraining 99 ⟨some "GET", some "/api/v1/resource", some "USA"⟩
        ⟨[], [], []⟩).2.mainQueue.length = 1 := by
  refine ⟨by decide, by decide, by decide⟩

/-- Claim C8 (amended): after a termination signal the ingress keeps accepting
requests unchanged — the draining-time request path is the same
validate-then-enqueue chain, so a well-formed request still gets 202 and
is enqueued while the queues drain. -/
theorem draining_ingress_accepts (now : Nat) (r : RawRequest) (s : IngressState)
    (h : requestInvalid r = false) :
    handleRequestWhileDraining now r s = handleRequest now r s ∧
    (handleRequestWhileDraining now r s).1.status = 202 ∧
    (handleRequestWhileDraining now r s).2.mainQueue.length = s.mainQueue.length + 1 := by
  refine ⟨rfl, ?_, ?_⟩ <;> simp [handleRequestWhileDraining, handleRequest, h]

/-- Witness for `draining_ingress_accepts` at a concrete valid request. -/
theorem draining_ingress_accepts_witness :
    (handleRequestWhileDraining 7 ⟨some "POST", some "/api/v2/resource", some "India"⟩
        ⟨[], [], []⟩).1.status = 202 ∧
    (handleRequestWhileDraining 7 ⟨some "POST", some "/api/v2/resource", some "India"⟩
        ⟨[], [], []⟩).2.mainQueue.length = 1 := by
  have h := draining_ingress_accepts 7 ⟨some "POST", some "/api/v2/resource", some "India"⟩
    ⟨[], [], []⟩ (by decide)
  exact ⟨h.2.1, h.2.2⟩

/-- Claim C9 (code bug): `requestId = Date.now()` is not collision-free — two
distinct valid requests handled in the same millisecond (`now = 1000`)
both get requestId 1000. -/
theorem requestId_collision :
    (handleRequest 1000 ⟨some "POST", some "/api/v2/resource", some "Europe"⟩
        (handleRequest 1000 ⟨some "GET", some "/api/v1/resource", some "USA"⟩
          ⟨[], [], []⟩).2).2.mainQueue =
      [⟨"GET", "/api/v1/resource", "USA", 1000⟩,
       ⟨"POST", "/api/v2/resource", "Europe", 1000⟩] ∧
    (⟨"GET", "/api/v1/resource", "USA", 1000⟩ : MainJob) ≠
      ⟨"POST", "/api/v2/resource", "Europe", 1000⟩ ∧
    MainJob.requestId ⟨"GET", "/api/v1/resource", "USA", 1000⟩ =
      MainJob.requestId ⟨"POST", "/api/v2/resource", "Europe", 1000⟩ := by
  refine ⟨by decide, by decide, rfl⟩

/-- Claim C10: the worker removes the front job from the queue and signals
`done()` at the current time t, while the mock backend response is
scheduled at t plus a delay of at least 200 ms — strictly later — so the
queue can report size 0 with backend responses still outstanding. -/
theorem done_before_backend_response (variant rand : RegionalJob → Nat)
    (j : RegionalJob) (rest : List RegionalJob) (t : Nat)
    (d : List (RegionalJob × Nat)) (dn resp : List (Nat × Nat)) :
    (stepWorker (fun jb => mockDelay (variant jb) (rand jb))
        ⟨j :: rest, t, d, dn, resp⟩).pending = rest ∧
    (stepWorker (fun jb => mockDelay (variant jb) (rand jb))
        ⟨j :: rest, t, d, dn, resp⟩).doneEvents = dn ++ [(j.requestId, t)] ∧
    (stepWorker (fun jb => mockDelay (variant jb) (rand jb))
        ⟨j :: rest, t, d, dn, resp⟩).responses =
      resp ++ [(j.requestId, t + mockDelay (variant j) (rand j))] ∧
    200 ≤ mockDelay (variant j) (rand j) ∧
    t < t + mockDelay (variant j) (rand j) := by
  have hdel : 200 ≤ mockDelay (variant j) (rand j) := by
    unfold mockDelay
    split <;> omega
  exact ⟨rfl, rfl, rfl, hdel, by omega⟩

end Server
